import Mathlib

/-!
Shallow embedding of the indexing and retrieval pipeline of `app.py`
(Communication-RAG): PDF loading and chunking (`load_pdfs`), index
rebuilding (`rebuild_index`), querying (`query_index`), and the
`st.cache_resource`-cached collection handle (`get_collection`),
over a model of the Chroma persistent store with the nearest-neighbor
capability abstracted as a distance function.
-/

/-- Chunking parameter from `app.py` line 52: `chunk_size, overlap = 900, 150`. -/
def chunk_size : Nat := 900

/-- Overlap parameter from `app.py` line 52. -/
def overlap : Nat := 150

/-- Python slice-index normalization for `s[a:b]`: a negative index counts
from the end of the string and is clamped below at 0; a nonnegative index is
clamped above at the length. -/
def sliceIdx (len : Nat) (i : Int) : Nat :=
  if i < 0 then ((len : Int) + i).toNat else min i.toNat len

/-- Python string slice `s[a:b]` with int (possibly negative) bounds. -/
def pySlice (s : String) (a b : Int) : String :=
  let lo := sliceIdx s.length a
  let hi := sliceIdx s.length b
  ((s.data.drop lo).take (hi - lo)).asString

/-- The chunking loop of `load_pdfs` (`app.py` lines 53-63), with explicit
fuel: `start = 0; while start < len(text): end = min(len(text), start +
chunk_size); yield text[start:end]; start = end - overlap`. The result is
`none` when the loop does not finish within `fuel` iterations, and the list
of yielded chunks when it does. -/
def chunkLoop (text : String) : Nat → Int → Option (List String)
  | 0, _ => none
  | fuel + 1, start =>
    if start < (text.length : Int) then
      let e : Int := min (text.length : Int) (start + (chunk_size : Int))
      match chunkLoop text fuel (e - (overlap : Int)) with
      | none => none
      | some cs => some (pySlice text start e :: cs)
    else some []

theorem chunkLoop_no_fuel (text : String) :
    ∀ (fuel : Nat) (start : Int), start < (text.length : Int) →
      chunkLoop text fuel start = none := by
  intro fuel
  induction fuel with
  | zero => intro start _; rfl
  | succ n ih =>
    intro start h
    have he : min ((text.length : Int)) (start + (chunk_size : Int)) - (overlap : Int)
        < (text.length : Int) := by
      have hm := min_le_left ((text.length : Int)) (start + (chunk_size : Int))
      have : (0 : Int) < (overlap : Int) := by norm_num [overlap]
      omega
    simp only [chunkLoop, if_pos h, ih _ he]

/-- C1: the claim states that for every non-empty whitespace-normalized page
text the sliding-window loop in `load_pdfs` terminates once
`start >= len(text)`. On the code this is FALSE: the loop sets
`start = end - overlap` with `end = min(len(text), start + chunk_size)`, so
once `end` clamps to `len(text)` the new `start` is `len(text) - 150`, which
is still below `len(text)`; the guard never fires and the loop runs forever
on every non-empty text. This theorem evaluates the code at the failing
inputs: no amount of fuel makes the loop finish. -/
theorem chunkLoop_diverges_on_nonempty (text : String) (h : 0 < text.length)
    (fuel : Nat) : chunkLoop text fuel 0 = none :=
  chunkLoop_no_fuel text fuel 0 (by exact_mod_cast h)

/-- Witness for C1's theorem at the one-character page text "a". -/
theorem chunkLoop_diverges_on_nonempty_w :
    0 < "a".length ∧ chunkLoop "a" 9 0 = none :=
  ⟨by decide, chunkLoop_diverges_on_nonempty "a" (by decide) 9⟩

/-- Helper for Python `raw.split()`: scan the characters, accumulating the
current word reversed, emitting a word at each whitespace run boundary. -/
def splitWsAux : List Char → List Char → List String
  | [], acc => if acc.isEmpty then [] else [acc.reverse.asString]
  | c :: cs, acc =>
    if c.isWhitespace then
      if acc.isEmpty then splitWsAux cs []
      else acc.reverse.asString :: splitWsAux cs []
    else splitWsAux cs (c :: acc)

/-- Python `raw.split()`: split on whitespace runs, dropping empty pieces
(leading and trailing whitespace produces no pieces). -/
def pySplitWs (s : String) : List String :=
  splitWsAux s.data []

/-- Whitespace normalization from `app.py` line 48: `" ".join(raw.split())`. -/
def normText (raw : String) : String :=
  " ".intercalate (pySplitWs raw)

/-- The metadata dict built for every chunk (`app.py` lines 57-61). -/
structure ChunkMeta where
  file : String
  path : String
  page : Nat
deriving DecidableEq

instance : Inhabited ChunkMeta := ⟨⟨"", "", 0⟩⟩

/-- A `(chunk_text, metadata)` pair as yielded by `load_pdfs`. -/
abbrev Chunk := String × ChunkMeta

/-- A PDF file of the data directory, as seen by the extractor: either the
`PdfReader` call raises (corrupt file), or it yields per-page raw extracted
texts (the value of `page.extract_text() or ""` for each page). -/
inductive PdfFile where
  | corrupt (name : String)
  | readable (name : String) (pages : List String)
deriving DecidableEq

/-- Per-file part of `load_pdfs` (`app.py` lines 46-63): pages enumerated
from 1, normalized, empty pages skipped, non-empty pages chunked by the
sliding-window loop. The result is `none` when a chunk loop diverges. -/
def loadPages (name : String) (fuel : Nat) : List String → Nat → Option (List Chunk)
  | [], _ => some []
  | raw :: rest, pn =>
    let text := normText raw
    if text = "" then loadPages name fuel rest (pn + 1)
    else
      match chunkLoop text fuel 0 with
      | none => none
      | some cs =>
        match loadPages name fuel rest (pn + 1) with
        | none => none
        | some more =>
          some (cs.map (fun c => (c, ChunkMeta.mk name ("data/" ++ name) pn)) ++ more)

/-- The generator `load_pdfs` (`app.py` lines 41-63) run to completion, as
consumed by `rebuild_index`: files in sorted order; a file whose read raises
makes the whole iteration raise, since the generator body has no try/except.
The result is `none` when a chunk loop diverges before any exception. -/
def load_pdfs : List PdfFile → Nat → Option (Except Unit (List Chunk))
  | [], _ => some (Except.ok [])
  | PdfFile.corrupt _ :: _, _ => some (Except.error ())
  | PdfFile.readable name pages :: rest, fuel =>
    match loadPages name fuel pages 1 with
    | none => none
    | some cs =>
      match load_pdfs rest fuel with
      | none => none
      | some (Except.error e) => some (Except.error e)
      | some (Except.ok more) => some (Except.ok (cs ++ more))

/-- One stored record of the Chroma collection: id, document text, metadata. -/
structure Entry where
  id : String
  doc : String
  meta : ChunkMeta
deriving DecidableEq

/-- The persistent Chroma store: the "docs" collection, when it exists, is a
generation tag (the collection's internal identity, fresh at each creation)
together with its entries; `nextGen` supplies fresh generation tags. -/
structure ChromaStore where
  nextGen : Nat
  coll : Option (Nat × List Entry)
deriving DecidableEq

/-- The process-wide `st.cache_resource` state: the collection handle
returned by `get_collection`, once computed, is reused for the whole
process lifetime. -/
structure ResourceCache where
  colHandle : Option Nat
deriving DecidableEq

/-- Whole-system state: persistent store plus the process cache. -/
structure SysState where
  store : ChromaStore
  cache : ResourceCache
deriving DecidableEq

/-- Entries of the "docs" collection, `[]` when the collection is absent. -/
def storeContents (st : ChromaStore) : List Entry :=
  match st.coll with
  | some (_, es) => es
  | none => []

/-- The cached `get_collection` (`app.py` lines 26-36): under
`st.cache_resource` the body runs at most once per process — a cached handle
is returned as-is; otherwise `get_or_create_collection` returns a handle to
the existing collection, or creates a fresh empty one when none exists. -/
def get_collection (s : SysState) : Nat × SysState :=
  match s.cache.colHandle with
  | some h => (h, s)
  | none =>
    match s.store.coll with
    | some (g, _) => (g, { s with cache := ResourceCache.mk (some g) })
    | none =>
      let g := s.store.nextGen
      (g, SysState.mk (ChromaStore.mk (g + 1) (some (g, []))) (ResourceCache.mk (some g)))

/-- The guarded delete of `rebuild_index` (`app.py` lines 71-74):
`client.delete_collection(COLLECTION)` with any exception swallowed — net
effect, the collection is gone whether or not it existed. -/
def delete_collection_swallow (s : SysState) : SysState :=
  { s with store := { s.store with coll := none } }

/-- Errors raised by the store: operating through a handle whose collection
no longer exists (Chroma's invalid-collection error). -/
inductive StoreErr where
  | invalidCollection
deriving DecidableEq

/-- Errors a rebuild can raise: a PDF read/extraction exception propagated
out of `load_pdfs`, or a store exception from `col.add`. -/
inductive RebuildErr where
  | extraction
  | store (e : StoreErr)
deriving DecidableEq

/-- The store's `col.add` through handle `h`: succeeds only if the "docs"
collection currently exists and is the very collection `h` refers to. -/
def colAdd (h : Nat) (es : List Entry) (s : SysState) : Except StoreErr SysState :=
  match s.store.coll with
  | some (g, old) =>
    if g = h then
      Except.ok { s with store := { s.store with coll := some (g, old ++ es) } }
    else Except.error StoreErr.invalidCollection
  | none => Except.error StoreErr.invalidCollection

/-- The chunk id of `app.py` line 82: the f-string `"{file}|p{page}|{i}"`,
where `i` is the global chunk counter of the rebuild. -/
def idOf (m : ChunkMeta) (i : Nat) : String :=
  m.file ++ "|p" ++ Nat.repr m.page ++ "|" ++ Nat.repr i

/-- The id-accumulation loop of `rebuild_index` (`app.py` lines 77-83): the
counter `i` starts at 0 and increments once per chunk across the whole
rebuild, not per page. -/
def buildIds (i : Nat) : List ChunkMeta → List String
  | [] => []
  | m :: ms => idOf m i :: buildIds (i + 1) ms

/-- Pairing of the parallel `ids`, `documents`, `metadatas` lists passed to
`col.add` into stored entries. -/
def mkEntries : List String → List String → List ChunkMeta → List Entry
  | i :: is, t :: ts, m :: ms => Entry.mk i t m :: mkEntries is ts ms
  | _, _, _ => []

/-- The body of `rebuild_index` (`app.py` lines 68-87) given the outcome of
consuming the `load_pdfs` generator: delete the collection (exceptions
swallowed), obtain the (cached) collection handle, accumulate texts,
metadatas and ids, and `col.add` when at least one chunk was produced; the
chunk count `len(texts)` is returned. The result is `none` when the
generator diverges. -/
def rebuild_with (loaded : Option (Except Unit (List Chunk))) (s : SysState) :
    Option (Except RebuildErr Nat × SysState) :=
  let s1 := delete_collection_swallow s
  let hs := get_collection s1
  match loaded with
  | none => none
  | some (Except.error _) => some (Except.error RebuildErr.extraction, hs.2)
  | some (Except.ok chunks) =>
    let texts := chunks.map Prod.fst
    let metas := chunks.map Prod.snd
    let ids := buildIds 0 metas
    if texts.isEmpty then some (Except.ok texts.length, hs.2)
    else
      match colAdd hs.1 (mkEntries ids texts metas) hs.2 with
      | Except.ok s3 => some (Except.ok texts.length, s3)
      | Except.error e => some (Except.error (RebuildErr.store e), hs.2)

/-- Full `rebuild_index` on a data directory (the sorted file list), with
fuel for the chunk loops. -/
def rebuild_index (dir : List PdfFile) (fuel : Nat) (s : SysState) :
    Option (Except RebuildErr Nat × SysState) :=
  rebuild_with (load_pdfs dir fuel) s

/-- One normalized hit of `query_index` (`app.py` line 101):
the dict with keys text, meta, score, id. -/
structure Hit where
  text : String
  meta : ChunkMeta
  score : Nat
  id : String
deriving DecidableEq

/-- The raw Chroma query result: parallel singleton-wrapped lists, as read
by `res["documents"][0]` and friends. -/
structure RawRes where
  documents : List (List String)
  metadatas : List (List ChunkMeta)
  distances : List (List Nat)
  ids : List (List String)
deriving DecidableEq

/-- The store's `col.query` through handle `h`, with the nearest-neighbor
capability abstracted as a distance function `dist` (lower = closer): the
collection's entries sorted by ascending distance to the query, first `n`
returned, as parallel lists. Raises when `h` no longer refers to an existing
collection. -/
def colQuery (dist : String → String → Nat) (h : Nat) (q : String) (n : Nat)
    (s : SysState) : Except StoreErr RawRes :=
  match s.store.coll with
  | none => Except.error StoreErr.invalidCollection
  | some (g, es) =>
    if g = h then
      let sorted := es.insertionSort (fun a b => dist q a.doc ≤ dist q b.doc)
      let top := sorted.take n
      Except.ok
        (RawRes.mk [top.map Entry.doc] [top.map Entry.meta]
          [top.map (fun e => dist q e.doc)] [top.map Entry.id])
    else Except.error StoreErr.invalidCollection

/-- Python `zip` over the four parallel result lists (`app.py` line 100). -/
def zip4 {α β γ δ : Type} : List α → List β → List γ → List δ → List (α × β × γ × δ)
  | a :: as, b :: bs, c :: cs, d :: ds => (a, b, c, d) :: zip4 as bs cs ds
  | _, _, _, _ => []

/-- The function `query_index` (`app.py` lines 89-102): obtain the (cached)
collection handle, query with `n_results = max(1, k)`, and normalize the
parallel result lists into hit records; a store exception propagates, since
the body has no try/except. -/
def query_index (dist : String → String → Nat) (q : String) (k : Int)
    (s : SysState) : Except StoreErr (List Hit) × SysState :=
  let hs := get_collection s
  match colQuery dist hs.1 q (max 1 k).toNat hs.2 with
  | Except.error e => (Except.error e, hs.2)
  | Except.ok res =>
    let docs := res.documents.getD 0 []
    let metas := res.metadatas.getD 0 []
    let dists := res.distances.getD 0 []
    let ids := res.ids.getD 0 []
    (Except.ok ((zip4 docs metas dists ids).map
      (fun t => Hit.mk t.1 t.2.1 t.2.2.1 t.2.2.2)), hs.2)

/-- A fresh process over an empty store: no collection on disk and no cached
handle (the state before any rebuild or query has run). -/
def freshSys : SysState := SysState.mk (ChromaStore.mk 0 none) (ResourceCache.mk none)

/-- A concrete executable distance function used by witnesses: absolute
difference of the lengths of the query and the document. -/
def dist0 (q d : String) : Nat := max q.length d.length - min q.length d.length

deriving instance DecidableEq for Except

/-- A state left by a successful earlier rebuild: the "docs" collection
holds one entry and the process cache holds the handle to it. -/
def sysWithOneEntry : SysState :=
  SysState.mk
    (ChromaStore.mk 1 (some (0,
      [Entry.mk "a.pdf|p1|0" "Hello world" (ChunkMeta.mk "a.pdf" "data/a.pdf" 1)])))
    (ResourceCache.mk (some 0))

theorem storeContents_get_collection_after_delete (s : SysState) :
    storeContents ((get_collection (delete_collection_swallow s)).2).store = [] := by
  cases hc : s.cache.colHandle <;>
    simp [get_collection, delete_collection_swallow, storeContents, hc]

/-- C2 counterexample: the claim states that a rebuild over an empty data
directory leaves the existing collection untouched. On the code this is
FALSE: `rebuild_index` deletes the collection before looking at the data
directory, so a state holding one prior entry comes out with no collection
at all (the call still returns 0 without raising). -/
theorem rebuild_index_empty_dir_destroys_index :
    (rebuild_index [] 1 sysWithOneEntry).map
        (fun r => (r.1, r.2.store.coll)) = some (Except.ok 0, none) ∧
    sysWithOneEntry.store.coll ≠ none := by
  constructor
  · rfl
  · decide

/-- C2 (amended): over an empty data directory `rebuild_index` returns 0 and
does not raise, but it first deletes the existing collection (the chosen
delete-then-recreate policy), so after the call the "docs" collection is
empty or absent — a prior valid index is destroyed. -/
theorem rebuild_index_empty_dir_returns_zero (fuel : Nat) (s : SysState) :
    ∃ s2, rebuild_index [] fuel s = some (Except.ok 0, s2) ∧
      storeContents s2.store = [] := by
  refine ⟨(get_collection (delete_collection_swallow s)).2, ?_,
    storeContents_get_collection_after_delete s⟩
  rfl

/-- Data directory with a corrupt first file (its read raises) and a
readable second file with real text. -/
def dirCorruptValid : List PdfFile :=
  [PdfFile.corrupt "a.pdf", PdfFile.readable "b.pdf" ["hello"]]

/-- C3 counterexample: the claim states that a file whose extraction raises
is skipped and the remaining readable PDFs are still indexed. On the code
this is FALSE: `load_pdfs` has no try/except, so the exception propagates
out of `rebuild_index` — the rebuild aborts with an extraction error and the
readable sibling b.pdf contributes nothing: the collection is left empty. -/
theorem rebuild_index_corrupt_aborts :
    (rebuild_index dirCorruptValid 5 freshSys).map
        (fun r => (r.1, storeContents r.2.store)) =
      some (Except.error RebuildErr.extraction, []) := by
  rfl

/-- C3 (amended): when text extraction raises for some PDF, the exception
propagates out of `rebuild_index` and aborts the whole rebuild: no warning,
no skipping, and no chunks — of that file or of any sibling — are indexed in
that run. -/
theorem rebuild_index_extraction_error_propagates (dir : List PdfFile)
    (fuel : Nat) (s : SysState)
    (h : load_pdfs dir fuel = some (Except.error ())) :
    ∃ s2, rebuild_index dir fuel s = some (Except.error RebuildErr.extraction, s2) ∧
      storeContents s2.store = [] := by
  refine ⟨(get_collection (delete_collection_swallow s)).2, ?_,
    storeContents_get_collection_after_delete s⟩
  unfold rebuild_index rebuild_with
  rw [h]

/-- Witness for C3's amended theorem: the corrupt-plus-valid directory. -/
theorem rebuild_index_extraction_error_propagates_w :
    load_pdfs dirCorruptValid 5 = some (Except.error ()) ∧
    ∃ s2, rebuild_index dirCorruptValid 5 freshSys =
        some (Except.error RebuildErr.extraction, s2) ∧
      storeContents s2.store = [] :=
  ⟨rfl, rebuild_index_extraction_error_propagates dirCorruptValid 5 freshSys rfl⟩

/-- Data directory with a single readable one-page PDF whose page text is
"hello": the smallest unchanged corpus with any indexable text. -/
def dirHello : List PdfFile := [PdfFile.readable "a.pdf" ["hello"]]

theorem loadPages_hello_none (fuel : Nat) :
    loadPages "a.pdf" fuel ["hello"] 1 = none := by
  have hne : normText "hello" = "hello" := by rfl
  have hd := chunkLoop_diverges_on_nonempty "hello" (by decide) fuel
  simp only [loadPages, hne]
  rw [if_neg (by decide : ¬ ("hello" = "")), hd]

theorem load_pdfs_hello_none (fuel : Nat) : load_pdfs dirHello fuel = none := by
  simp only [dirHello, load_pdfs, loadPages_hello_none]

/-- C9: the claim states that running `rebuild_index` twice on an unchanged
data directory produces identical id sets. On the code this fails already at
the first run: over any corpus with a non-empty page — here the unchanged
directory holding a.pdf with page text "hello" — `rebuild_index` never
returns, because the chunking loop never terminates (see the C1 theorem),
so no id set is produced by either run. -/
theorem rebuild_index_unchanged_dir_diverges (fuel : Nat) (s : SysState) :
    rebuild_index dirHello fuel s = none := by
  unfold rebuild_index rebuild_with
  rw [load_pdfs_hello_none]

theorem query_index_state (dist : String → String → Nat) (q : String)
    (k : Int) (s : SysState) :
    (query_index dist q k s).2 = (get_collection s).2 := by
  simp only [query_index]
  rcases hq : colQuery dist (get_collection s).1 q (max 1 k).toNat (get_collection s).2
    with e | r <;> simp [hq]

/-- C6 counterexample: the claim states that `query_index` never creates,
deletes, or modifies the collection. On the code this is FALSE on a fresh
process with no prior rebuild: `get_collection` uses
`get_or_create_collection`, so the first query CREATES an empty collection
— the persisted store changes. -/
theorem query_index_fresh_writes_store :
    (query_index dist0 "q" 3 freshSys).2.store ≠ freshSys.store := by decide

/-- C6 (amended): `query_index` never modifies the contents of an existing
collection: whenever the process cache already holds a collection handle or
the collection exists, a query leaves the persisted store unchanged; only on
a fresh process with no collection does it create an empty one as a side
effect of `get_or_create_collection`. -/
theorem query_index_pure_reader (dist : String → String → Nat) (q : String)
    (k : Int) (s : SysState)
    (h : s.cache.colHandle ≠ none ∨ s.store.coll ≠ none) :
    ((query_index dist q k s).2).store = s.store := by
  rw [query_index_state]
  cases hc : s.cache.colHandle with
  | some hh => simp [get_collection, hc]
  | none =>
    cases hco : s.store.coll with
    | none =>
      rcases h with h1 | h1
      · exact absurd hc h1
      · exact absurd hco h1
    | some ge => simp [get_collection, hc, hco]

/-- Witness for C6's amended theorem at a state with an existing entry. -/
theorem query_index_pure_reader_w :
    ((query_index dist0 "q" 2 sysWithOneEntry).2).store = sysWithOneEntry.store :=
  query_index_pure_reader dist0 "q" 2 sysWithOneEntry (Or.inl (by decide))

/-- C7 counterexample: the claim states that `query_index` with k < 1 fails
fast with a ConfigurationError before any I/O. On the code this is FALSE:
with k = 0 the call clamps `n_results` to `max(1, k) = 1`, performs the
query, and returns an ordinary non-error result. -/
theorem query_index_k0_returns_results :
    (query_index dist0 "q" 0 sysWithOneEntry).1 =
      Except.ok [Hit.mk "Hello world" (ChunkMeta.mk "a.pdf" "data/a.pdf" 1)
        10 "a.pdf|p1|0"] := by
  decide

/-- C7 (amended): a call with k < 1 does not fail at all: `n_results` is
clamped to `max(1, k) = 1` and the call behaves exactly as `k = 1`; no
ConfigurationError exists anywhere in the code. -/
theorem query_index_clamps_small_k (dist : String → String → Nat) (q : String)
    (k : Int) (s : SysState) (h : k < 1) :
    query_index dist q k s = query_index dist q 1 s := by
  unfold query_index
  rw [max_eq_left (le_of_lt h), max_self]

/-- Witness for C7's amended theorem at k = 0. -/
theorem query_index_clamps_small_k_w :
    query_index dist0 "q" 0 sysWithOneEntry = query_index dist0 "q" 1 sysWithOneEntry :=
  query_index_clamps_small_k dist0 "q" 0 sysWithOneEntry (by decide)

/-- Data directory with one readable PDF whose single page extracts to empty
text (the rebuild then terminates: no chunks are produced). -/
def dirEmptyPage : List PdfFile := [PdfFile.readable "a.pdf" [""]]

/-- C4 counterexample: the claim states that `query_index` never raises. On
the code this is FALSE at a reachable state: after two rebuilds over a
directory whose only page is empty, the second rebuild deleted the
collection while the process cache kept the old handle, so the next query
raises Chroma's invalid-collection error instead of returning []. -/
theorem query_index_raises_after_two_rebuilds :
    ∃ s1 s2,
      rebuild_index dirEmptyPage 1 freshSys = some (Except.ok 0, s1) ∧
      rebuild_index dirEmptyPage 1 s1 = some (Except.ok 0, s2) ∧
      (query_index dist0 "q" 3 s2).1 = Except.error StoreErr.invalidCollection := by
  refine ⟨SysState.mk (ChromaStore.mk 1 (some (0, []))) (ResourceCache.mk (some 0)),
    SysState.mk (ChromaStore.mk 1 none) (ResourceCache.mk (some 0)), ?_, ?_, ?_⟩ <;> rfl

/-- C4 (amended): `query_index` contains no error handling: on a fresh
process with no collection it creates an empty one and returns the empty
list, but when the underlying query raises — as through a stale cached
handle after the collection was deleted — the exception propagates instead
of being caught and turned into an empty result. -/
theorem query_index_no_error_handling :
    (∀ (dist : String → String → Nat) (q : String) (k : Int),
      (query_index dist q k freshSys).1 = Except.ok []) ∧
    (∀ (dist : String → String → Nat) (q : String) (k : Int) (s : SysState)
      (h : Nat), s.cache.colHandle = some h → s.store.coll = none →
      (query_index dist q k s).1 = Except.error StoreErr.invalidCollection) := by
  constructor
  · intro dist q k
    simp [query_index, get_collection, freshSys, colQuery, List.take_nil, zip4]
  · intro dist q k s h hc hco
    simp [query_index, get_collection, colQuery, hc, hco]

/-- Witness for C4's amended theorem: the stale-handle half at a concrete
deleted-collection state. -/
theorem query_index_no_error_handling_w :
    (query_index dist0 "q" 3
        (SysState.mk (ChromaStore.mk 1 none) (ResourceCache.mk (some 0)))).1 =
      Except.error StoreErr.invalidCollection :=
  query_index_no_error_handling.2 dist0 "q" 3
    (SysState.mk (ChromaStore.mk 1 none) (ResourceCache.mk (some 0))) 0 rfl rfl

/-- C10: `get_collection` is cached by `st.cache_resource`, so on any later
rebuild the handle used for `col.add` is the one cached before this
rebuild's `delete_collection` step: the delete-then-recreate sequence does
not refresh it. Concretely, with a warm cache holding handle g, the inner
`get_collection` returns g and touches nothing, no fresh collection is ever
created (`nextGen` is unchanged and the collection stays deleted), the cache
still holds g afterwards, and an `add` of any non-empty chunk list through
that stale handle raises the invalid-collection error. -/
theorem rebuild_index_uses_stale_handle (s : SysState) (g : Nat)
    (chunks : List Chunk) (h : s.cache.colHandle = some g) :
    get_collection (delete_collection_swallow s) = (g, delete_collection_swallow s) ∧
    rebuild_with (some (Except.ok chunks)) s =
      some ((if chunks.isEmpty then Except.ok chunks.length
             else Except.error (RebuildErr.store StoreErr.invalidCollection)),
        SysState.mk (ChromaStore.mk s.store.nextGen none) s.cache) := by
  have h1 : get_collection (delete_collection_swallow s) = (g, delete_collection_swallow s) := by
    simp [get_collection, delete_collection_swallow, h]
  refine ⟨h1, ?_⟩
  simp only [rebuild_with]
  rw [h1]
  cases chunks with
  | nil => rfl
  | cons c t =>
    simp [colAdd, delete_collection_swallow, List.isEmpty]

/-- Witness for C10's theorem: a warm cache with handle 0 and one chunk. -/
theorem rebuild_index_uses_stale_handle_w :
    get_collection (delete_collection_swallow sysWithOneEntry) =
      (0, delete_collection_swallow sysWithOneEntry) ∧
    rebuild_with (some (Except.ok [("hello", ChunkMeta.mk "a.pdf" "data/a.pdf" 1)]))
        sysWithOneEntry =
      some ((if ([("hello", ChunkMeta.mk "a.pdf" "data/a.pdf" 1)] :
               List Chunk).isEmpty then
               Except.ok ([("hello", ChunkMeta.mk "a.pdf" "data/a.pdf" 1)] :
                 List Chunk).length
             else Except.error (RebuildErr.store StoreErr.invalidCollection)),
        SysState.mk (ChromaStore.mk sysWithOneEntry.store.nextGen none)
          sysWithOneEntry.cache) :=
  rebuild_index_uses_stale_handle sysWithOneEntry 0
    [("hello", ChunkMeta.mk "a.pdf" "data/a.pdf" 1)] rfl

/-- Decimal value of a digit-character list, as produced by `Nat.toDigits`. -/
def digitsVal (cs : List Char) : Nat :=
  cs.foldl (fun a c => 10 * a + (c.toNat - 48)) 0

theorem digitChar_facts :
    ∀ m < 10, (Nat.digitChar m).toNat - 48 = m ∧ Nat.digitChar m ≠ '|' := by
  decide

theorem toDigitsCore_spec :
    ∀ (fuel n : Nat) (ds : List Char), n < fuel →
      ∃ pre, Nat.toDigitsCore 10 fuel n ds = pre ++ ds ∧
        (∀ c ∈ pre, c ≠ '|') ∧ digitsVal pre = n := by
  intro fuel
  induction fuel with
  | zero => intro n ds h; omega
  | succ f ih =>
    intro n ds h
    by_cases h10 : n / 10 = 0
    · refine ⟨[Nat.digitChar (n % 10)], ?_, ?_, ?_⟩
      · simp [Nat.toDigitsCore, h10]
      · intro c hc
        simp at hc
        subst hc
        exact (digitChar_facts _ (Nat.mod_lt _ (by norm_num))).2
      · have hv := (digitChar_facts (n % 10) (Nat.mod_lt _ (by norm_num))).1
        simp [digitsVal, hv]
        omega
    · have hlt : n / 10 < f := by
        have h1 : n / 10 < n :=
          Nat.div_lt_self (Nat.pos_of_ne_zero (fun h0 => by simp [h0] at h10))
            (by norm_num)
        omega
      obtain ⟨pre, hpre, hdig, hval⟩ := ih (n / 10) (Nat.digitChar (n % 10) :: ds) hlt
      refine ⟨pre ++ [Nat.digitChar (n % 10)], ?_, ?_, ?_⟩
      · simp [Nat.toDigitsCore, h10, hpre]
      · intro c hc
        rcases List.mem_append.1 hc with h1 | h1
        · exact hdig c h1
        · simp at h1
          subst h1
          exact (digitChar_facts _ (Nat.mod_lt _ (by norm_num))).2
      · have hv := (digitChar_facts (n % 10) (Nat.mod_lt _ (by norm_num))).1
        unfold digitsVal at hval ⊢
        rw [List.foldl_append, hval]
        simp [hv]
        omega

theorem toDigits_spec (n : Nat) :
    (∀ c ∈ Nat.toDigits 10 n, c ≠ '|') ∧ digitsVal (Nat.toDigits 10 n) = n := by
  obtain ⟨pre, hpre, hdig, hval⟩ :=
    toDigitsCore_spec (n + 1) n [] (Nat.lt_succ_self n)
  have heq : Nat.toDigits 10 n = pre := by
    unfold Nat.toDigits
    rw [hpre, List.append_nil]
  rw [heq]
  exact ⟨hdig, hval⟩

theorem repr_data_no_bar (n : Nat) : ∀ c ∈ (Nat.repr n).data, c ≠ '|' :=
  (toDigits_spec n).1

theorem repr_inj {m n : Nat} (h : Nat.repr m = Nat.repr n) : m = n := by
  have hd : Nat.toDigits 10 m = Nat.toDigits 10 n := congrArg String.data h
  have hm := (toDigits_spec m).2
  have hn := (toDigits_spec n).2
  rw [hd, hn] at hm
  exact hm.symm

/-- Characters of a list strictly after its last bar separator (empty when
no bar occurs): the reversed longest bar-free suffix machinery used to parse
the trailing counter out of a chunk id. -/
def afterLastBar (cs : List Char) : List Char :=
  ((cs.reverse.takeWhile (fun c => c != '|')).reverse)

theorem takeWhile_append_stop (p : Char → Bool) :
    ∀ (xs : List Char) (y : Char) (ys : List Char), (∀ x ∈ xs, p x) →
      p y = false → (xs ++ y :: ys).takeWhile p = xs := by
  intro xs
  induction xs with
  | nil =>
    intro y ys _ hy
    simp [List.takeWhile_cons, hy]
  | cons a t ih =>
    intro y ys hall hy
    simp [List.takeWhile_cons, hall a (by simp),
      ih y ys (fun x hx => hall x (by simp [hx])) hy]

theorem afterLastBar_append (A D : List Char) (hD : ∀ c ∈ D, c ≠ '|') :
    afterLastBar (A ++ '|' :: D) = D := by
  unfold afterLastBar
  rw [List.reverse_append, List.reverse_cons, List.append_assoc,
    List.singleton_append]
  rw [takeWhile_append_stop _ D.reverse '|' A.reverse
    (fun x hx => by simpa using hD x (List.mem_reverse.1 hx)) (by simp)]
  exact List.reverse_reverse D

theorem idOf_data (m : ChunkMeta) (j : Nat) :
    (idOf m j).data =
      (m.file.data ++ '|' :: 'p' :: (Nat.repr m.page).data) ++ '|' :: (Nat.repr j).data := by
  simp only [idOf, String.data_append, List.append_assoc]
  rfl

theorem repr_data_inj {m n : Nat} (h : (Nat.repr m).data = (Nat.repr n).data) :
    m = n := by
  have hd : Nat.toDigits 10 m = Nat.toDigits 10 n := h
  have hm := (toDigits_spec m).2
  have hn := (toDigits_spec n).2
  rw [hd, hn] at hm
  exact hm.symm

theorem idOf_inj_counter {m m' : ChunkMeta} {i i' : Nat}
    (h : idOf m i = idOf m' i') : i = i' := by
  have hi : afterLastBar (idOf m i).data = afterLastBar (idOf m' i').data :=
    congrArg (fun s => afterLastBar s.data) h
  rw [idOf_data, idOf_data, afterLastBar_append _ _ (repr_data_no_bar i),
    afterLastBar_append _ _ (repr_data_no_bar i')] at hi
  exact repr_data_inj hi

theorem buildIds_not_mem (m : ChunkMeta) :
    ∀ (ms : List ChunkMeta) (i j : Nat), i < j → idOf m i ∉ buildIds j ms := by
  intro ms
  induction ms with
  | nil => intro i j _ hmem; simp [buildIds] at hmem
  | cons m' t ih =>
    intro i j hij hmem
    simp only [buildIds, List.mem_cons] at hmem
    rcases hmem with h | h
    · exact absurd (idOf_inj_counter h) (by omega)
    · exact ih i (j + 1) (by omega) h

theorem buildIds_nodup : ∀ (ms : List ChunkMeta) (i : Nat), (buildIds i ms).Nodup := by
  intro ms
  induction ms with
  | nil => intro i; simp [buildIds]
  | cons m t ih =>
    intro i
    rw [buildIds, List.nodup_cons]
    exact ⟨buildIds_not_mem m t i (i + 1) (by omega), ih (i + 1)⟩

theorem buildIds_getD :
    ∀ (ms : List ChunkMeta) (i j : Nat), j < ms.length →
      (buildIds i ms).getD j "" = idOf (ms.getD j default) (i + j) := by
  intro ms
  induction ms with
  | nil => intro i j h; simp at h
  | cons m t ih =>
    intro i j h
    cases j with
    | zero => simp [buildIds]
    | succ jj =>
      rw [buildIds, List.getD_cons_succ, List.getD_cons_succ,
        ih (i + 1) jj (by simpa using h)]
      have harith : i + 1 + jj = i + (jj + 1) := by omega
      rw [harith]

/-- Intra-page chunk index of position j in the metadata stream: the number
of earlier chunks with the same (file, page). -/
def intraIdx (metas : List ChunkMeta) (j : Nat) : Nat :=
  let m := metas.getD j default
  ((metas.take j).filter (fun m' => m'.file == m.file && m'.page == m.page)).length

/-- C5 counterexample: the claim states that every chunk id is derivable
from the triple (source file name, page number, intra-page chunk index
starting at 0). On the code this is FALSE: ids use a single global counter
across the whole rebuild, so the first chunk of b.pdf page 1 gets id
"b.pdf|p1|0" when b.pdf is indexed alone but "b.pdf|p1|1" when a.pdf
precedes it — the same triple (b.pdf, 1, 0) maps to two different ids, so
no function of the triple reproduces the code's ids. -/
theorem chunk_id_not_derivable_from_triple :
    ¬ ∃ g : String → Nat → Nat → String,
      ∀ (metas : List ChunkMeta) (j : Nat), j < metas.length →
        (buildIds 0 metas).getD j "" =
          g (metas.getD j default).file (metas.getD j default).page
            (intraIdx metas j) := by
  rintro ⟨g, hg⟩
  have h1 : "b.pdf|p1|0" = g "b.pdf" 1 0 :=
    hg [ChunkMeta.mk "b.pdf" "data/b.pdf" 1] 0 (by decide)
  have h2 : "b.pdf|p1|1" = g "b.pdf" 1 0 :=
    hg [ChunkMeta.mk "a.pdf" "data/a.pdf" 1, ChunkMeta.mk "b.pdf" "data/b.pdf" 1] 1
      (by decide)
  have : "b.pdf|p1|0" = "b.pdf|p1|1" := h1.trans h2.symm
  exact absurd this (by decide)

/-- C5 (amended): every chunk id of a rebuild is the string
"{file}|p{page}|{i}" where i is the global chunk counter of the rebuild
(position in the whole chunk stream), not the intra-page index; these ids
are pairwise distinct within one rebuild — and hence unique within the
collection written by `col.add` — but they are not a function of
(file, page, intra-page index) alone. -/
theorem buildIds_unique_and_positional (metas : List ChunkMeta) (i : Nat) :
    (buildIds i metas).Nodup ∧
    ∀ j, j < metas.length →
      (buildIds i metas).getD j "" = idOf (metas.getD j default) (i + j) :=
  ⟨buildIds_nodup metas i, fun j hj => buildIds_getD metas i j hj⟩

/-- Witness for C5's amended theorem at a concrete two-chunk stream. -/
theorem buildIds_unique_and_positional_w :
    (buildIds 0 [ChunkMeta.mk "a.pdf" "data/a.pdf" 1,
      ChunkMeta.mk "b.pdf" "data/b.pdf" 1]).Nodup ∧
    (buildIds 0 [ChunkMeta.mk "a.pdf" "data/a.pdf" 1,
      ChunkMeta.mk "b.pdf" "data/b.pdf" 1]).getD 1 "" =
      idOf ([ChunkMeta.mk "a.pdf" "data/a.pdf" 1,
        ChunkMeta.mk "b.pdf" "data/b.pdf" 1].getD 1 default) (0 + 1) :=
  ⟨(buildIds_unique_and_positional _ 0).1,
    (buildIds_unique_and_positional _ 0).2 1 (by decide)⟩

theorem zip4_map {α β γ δ ε : Type} (f1 : ε → α) (f2 : ε → β) (f3 : ε → γ)
    (f4 : ε → δ) :
    ∀ l : List ε, zip4 (l.map f1) (l.map f2) (l.map f3) (l.map f4) =
      l.map (fun x => (f1 x, f2 x, f3 x, f4 x)) := by
  intro l
  induction l with
  | nil => rfl
  | cons a t ih => simp [zip4, ih]

theorem colQuery_ok (dist : String → String → Nat) (h : Nat) (q : String)
    (n : Nat) (s : SysState) (res : RawRes)
    (hq : colQuery dist h q n s = Except.ok res) :
    ∃ es, s.store.coll = some (h, es) ∧
      res = RawRes.mk
        [((es.insertionSort (fun a b => dist q a.doc ≤ dist q b.doc)).take n).map
          Entry.doc]
        [((es.insertionSort (fun a b => dist q a.doc ≤ dist q b.doc)).take n).map
          Entry.meta]
        [((es.insertionSort (fun a b => dist q a.doc ≤ dist q b.doc)).take n).map
          (fun e => dist q e.doc)]
        [((es.insertionSort (fun a b => dist q a.doc ≤ dist q b.doc)).take n).map
          Entry.id] := by
  unfold colQuery at hq
  cases hco : s.store.coll with
  | none => rw [hco] at hq; cases hq
  | some ge =>
    rw [hco] at hq
    obtain ⟨g, es⟩ := ge
    by_cases hg : g = h
    · subst hg
      simp only [if_pos rfl] at hq
      refine ⟨es, rfl, ?_⟩
      cases hq
      rfl
    · simp only [if_neg hg] at hq
      cases hq

/-- C8: for every question q and every k ≥ 1, whenever `query_index` returns
a result list, it holds at most k hits, in the store's returned order with
non-decreasing distances, and every hit carries the id, text, metadata and
distance of an entry stored in the queried collection. -/
theorem query_index_topk (dist : String → String → Nat) (q : String) (k : Int)
    (s : SysState) (hits : List Hit) (hk : 1 ≤ k)
    (h : (query_index dist q k s).1 = Except.ok hits) :
    hits.length ≤ k.toNat ∧
    List.Pairwise (fun a b => a ≤ b) (hits.map Hit.score) ∧
    ∀ ht ∈ hits, ∃ e ∈ storeContents ((query_index dist q k s).2).store,
      ht.id = e.id ∧ ht.text = e.doc ∧ ht.meta = e.meta ∧ ht.score = dist q e.doc := by
  simp only [query_index] at h
  rcases hq : colQuery dist (get_collection s).1 q (max 1 k).toNat (get_collection s).2
    with e | res
  · rw [hq] at h
    cases h
  · rw [hq] at h
    obtain ⟨es, hco, hres⟩ :=
      colQuery_ok dist (get_collection s).1 q (max 1 k).toNat (get_collection s).2 res hq
    have hmax : max 1 k = k := max_eq_right hk
    set le := fun a b : Entry => dist q a.doc ≤ dist q b.doc with hle
    set top := (es.insertionSort le).take (max 1 k).toNat with htop
    have hhits : hits = top.map (fun e => Hit.mk e.doc e.meta (dist q e.doc) e.id) := by
      rw [hres] at h
      simp only [List.getD_cons_zero, Except.ok.injEq] at h
      rw [← h, zip4_map]
      simp [List.map_map, Function.comp]
    haveI hto : IsTotal Entry le := ⟨fun a b => le_total _ _⟩
    haveI htr : IsTrans Entry le := ⟨fun a b c hab hbc => le_trans hab hbc⟩
    have hsorted : List.Pairwise le top :=
      List.Pairwise.sublist (List.take_sublist _ _) (List.sorted_insertionSort le es)
    have hmemtop : ∀ e ∈ top, e ∈ es := by
      intro e he
      exact (List.perm_insertionSort le es).mem_iff.1
        ((List.take_sublist _ _).subset he)
    refine ⟨?_, ?_, ?_⟩
    · rw [hhits, List.length_map, htop, List.length_take]
      rw [hmax]
      exact min_le_left _ _
    · rw [hhits, List.map_map]
      exact (List.pairwise_map).2 (hsorted.imp (fun hab => hab))
    · intro ht hht
      rw [hhits] at hht
      obtain ⟨e, he, rfl⟩ := List.mem_map.1 hht
      refine ⟨e, ?_, rfl, rfl, rfl, rfl⟩
      rw [query_index_state, storeContents, hco]
      exact hmemtop e he

/-- A state holding a three-entry collection, used to exercise the query
path end to end. -/
def sysThree : SysState :=
  SysState.mk
    (ChromaStore.mk 1 (some (0,
      [Entry.mk "i1" "dd" (ChunkMeta.mk "a.pdf" "data/a.pdf" 1),
       Entry.mk "i2" "d" (ChunkMeta.mk "a.pdf" "data/a.pdf" 1),
       Entry.mk "i3" "dddd" (ChunkMeta.mk "b.pdf" "data/b.pdf" 2)])))
    (ResourceCache.mk (some 0))

/-- The two hits returned for query "q" with k = 2 against `sysThree`. -/
def hitsW : List Hit :=
  [Hit.mk "d" (ChunkMeta.mk "a.pdf" "data/a.pdf" 1) 0 "i2",
   Hit.mk "dd" (ChunkMeta.mk "a.pdf" "data/a.pdf" 1) 1 "i1"]

/-- Witness for C8's theorem at a concrete three-entry collection and k = 2. -/
theorem query_index_topk_w :
    hitsW.length ≤ (2 : Int).toNat ∧
    List.Pairwise (fun a b => a ≤ b) (hitsW.map Hit.score) ∧
    ∀ ht ∈ hitsW, ∃ e ∈ storeContents ((query_index dist0 "q" 2 sysThree).2).store,
      ht.id = e.id ∧ ht.text = e.doc ∧ ht.meta = e.meta ∧ ht.score = dist0 "q" e.doc :=
  query_index_topk dist0 "q" 2 sysThree hitsW (by decide) (by decide)
